import Mathlib

/-!
Verification of the scan/boundary-resolution core of `src/taskpane/taskpane.ts`
(`scanAndBuildUI` and `copyTextToClipboard`), shallowly embedded in Lean.

The Word document service is an external collaborator; it is modelled as an
abstract `DocService` providing the two batch operations the code uses
(paragraph fetch on the first `context.sync`, range-text resolution on the
second).  The scan itself is embedded faithfully from the TypeScript source,
instrumented with the list of service round trips it performs.
-/

namespace PromptMaster

/-! ### Executable string primitives

The JavaScript string operations the source uses (`trim`, `startsWith`,
`substring(1)`, `length`), embedded structurally over `String.data` so that
the kernel can evaluate them on concrete inputs. -/

/-- Remove leading and trailing whitespace characters (JS `String.prototype.trim`). -/
def trimChars (s : List Char) : List Char :=
  ((s.dropWhile Char.isWhitespace).reverse.dropWhile Char.isWhitespace).reverse

/-- JS `s.trim()`. -/
def strTrim (s : String) : String := ⟨trimChars s.data⟩

/-- JS `s.startsWith(pre)`. -/
def strStartsWith (s pre : String) : Bool := pre.data.isPrefixOf s.data

/-- JS `s.substring(n)` for `n ≥ 0`: drop the first `n` characters. -/
def strDrop (s : String) (n : Nat) : String := ⟨s.data.drop n⟩

/-- JS `s.length`. -/
def strLength (s : String) : Nat := s.data.length

/-- A paragraph as loaded by `paragraphs.load("items/styleBuiltIn, items/text")`. -/
structure Paragraph where
  styleBuiltIn : String
  text : String
deriving Repr, DecidableEq

/-- `p.styleBuiltIn.startsWith("Heading")` (taskpane.ts line 47). -/
def isHeadingStyle (s : String) : Bool :=
  strStartsWith s "Heading"

/-- A heading record as pushed onto `allHeadings` (taskpane.ts lines 48-52):
the paragraph's text together with its index `i` in the paragraph stream. -/
structure Heading where
  index : Nat
  text : String
deriving Repr, DecidableEq

/-- The `allHeadings` loop (taskpane.ts lines 44-54), carrying the running
paragraph index `i`. -/
def allHeadingsAux : List Paragraph → Nat → List Heading
  | [], _ => []
  | p :: ps, i =>
    if isHeadingStyle p.styleBuiltIn then
      { index := i, text := p.text } :: allHeadingsAux ps (i + 1)
    else
      allHeadingsAux ps (i + 1)

/-- All heading paragraphs of the stream, in document order. -/
def allHeadings (ps : List Paragraph) : List Heading :=
  allHeadingsAux ps 0

/-- An opaque document boundary: `paragraph.getRange("End")`,
`paragraph.getRange("Start")` (identified by paragraph index), or
`body.getRange("End")`. -/
inductive Boundary where
  | parEnd (i : Nat)
  | parStart (i : Nat)
  | docEnd
deriving Repr, DecidableEq

/-- The content range queued by `startRange.expandTo(endRange)`
(taskpane.ts lines 74-83): an opaque start/end boundary pair. -/
structure ContentRangeDescriptor where
  startB : Boundary
  endB : Boundary
deriving Repr, DecidableEq

/-- The descriptor built for a Button heading (taskpane.ts lines 71-82):
start = `currentHeading.paragraph.getRange("End")`, end =
`nextHeading.paragraph.getRange("Start")` when a next heading exists, else
`context.document.body.getRange("End")`. -/
def descFor (h : Heading) (next : Option Heading) : ContentRangeDescriptor :=
  { startB := Boundary.parEnd h.index
    endB :=
      match next with
      | some nh => Boundary.parStart nh.index
      | none => Boundary.docEnd }

/-- An entry of `uiItemsToCreate` before the second sync: a fully formed
label, or a button stub whose `textToCopy` is still empty and which holds its
queued content range (`_range`). -/
inductive UIItem where
  | label (text : String)
  | buttonStub (text : String) (range : ContentRangeDescriptor)
deriving Repr, DecidableEq

/-- Is this UI item a button stub (an entry of `rangesToLoad`)? -/
def UIItem.isButtonStub : UIItem → Bool
  | UIItem.buttonStub _ _ => true
  | _ => false

/-- The heading's `headingText = currentHeading.text.trim()` (taskpane.ts line 67). -/
def headingText (h : Heading) : String :=
  strTrim h.text

/-- Does this heading carry the Button marker?
(`headingText.startsWith("*")`, taskpane.ts line 69) -/
def isButtonHeading (h : Heading) : Bool :=
  strStartsWith (headingText h) "*"

/-- Does this heading carry the Label marker?
(`headingText.startsWith("_")`, taskpane.ts line 99, tested only when the
Button test failed) -/
def isLabelHeading (h : Heading) : Bool :=
  strStartsWith (headingText h) "_"

/-- Does this heading produce a directive at all? -/
def isMarkedHeading (h : Heading) : Bool :=
  isButtonHeading h || isLabelHeading h

/-- The display text of a directive: `headingText.substring(1).trim()`
(taskpane.ts lines 87 and 103). -/
def displayText (h : Heading) : String :=
  strTrim (strDrop (headingText h) 1)

/-- The classification loop over `allHeadings` (taskpane.ts lines 65-106),
carrying the loop index `i` (the heading's position).  Returns
`uiItemsToCreate` (each item paired with the position of its owning heading)
and `rangesToLoad` (the queued content ranges, in push order). -/
def buildItemsAux : List Heading → Nat → List (Nat × UIItem) × List ContentRangeDescriptor
  | [], _ => ([], [])
  | h :: rest, i =>
    let done := buildItemsAux rest (i + 1)
    if isButtonHeading h then
      let contentRange := descFor h rest.head?
      ((i, UIItem.buttonStub (displayText h) contentRange) :: done.1,
       contentRange :: done.2)
    else if isLabelHeading h then
      ((i, UIItem.label (displayText h)) :: done.1, done.2)
    else
      done

/-- `uiItemsToCreate` and `rangesToLoad` for a heading sequence. -/
def buildItems (hs : List Heading) : List (Nat × UIItem) × List ContentRangeDescriptor :=
  buildItemsAux hs 0

/-- A final UI directive: a rendered `h3` label or a button with its resolved
`textToCopy` payload. -/
inductive UIDirective where
  | label (text : String)
  | button (text : String) (payload : String)
deriving Repr, DecidableEq

/-- The binding loop after the second sync (taskpane.ts lines 112-114): each
button stub's payload is set to its resolved range text, trimmed; resolved
texts are consumed positionally, one per button stub, in order. -/
def fillPayloads : List (Nat × UIItem) → List String → List (Nat × UIDirective)
  | [], _ => []
  | (p, UIItem.label t) :: rest, texts =>
      (p, UIDirective.label t) :: fillPayloads rest texts
  | (p, UIItem.buttonStub t _) :: rest, texts =>
      (p, UIDirective.button t (strTrim (texts.headD ""))) :: fillPayloads rest texts.tail

/-- The outcome of one scan, as surfaced to the UI. -/
inductive ScanResult where
  | NoHeadings
  | NoDirectives
  | Directives (items : List UIDirective)
  | Failed (reason : String)
deriving Repr, DecidableEq

/-- The directives a scan emitted (empty unless the scan reached `Directives`). -/
def ScanResult.directives : ScanResult → List UIDirective
  | ScanResult.Directives l => l
  | _ => []

/-- One suspension point against the document service: the first
`context.sync` (paragraph-metadata fetch) or the second (batched range-text
resolution, with its request batch). -/
inductive ServiceCall where
  | fetchParagraphs
  | resolveRanges (batch : List ContentRangeDescriptor)
deriving Repr, DecidableEq

/-- Is this service call a range-resolution round trip? -/
def ServiceCall.isResolve : ServiceCall → Bool
  | ServiceCall.resolveRanges _ => true
  | _ => false

/-- The external Word document service: the paragraph batch fetch and the
batched range resolution, each of which may fail (network/host error). -/
structure DocService where
  fetchParagraphs : Except String (List Paragraph)
  resolveRanges : List ContentRangeDescriptor → Except String (List String)

/-- `scanAndBuildUI` (taskpane.ts lines 31-146), embedded over an abstract
document service, returning the scan outcome together with the ordered list
of service round trips performed.  A failing service call throws out of
`Word.run` and is caught (lines 142-145), yielding `Failed`. -/
def scanAndBuildUI (svc : DocService) : ScanResult × List ServiceCall :=
  match svc.fetchParagraphs with
  | Except.error e => (ScanResult.Failed e, [ServiceCall.fetchParagraphs])
  | Except.ok paragraphs =>
    let headings := allHeadings paragraphs
    if headings.length = 0 then
      (ScanResult.NoHeadings, [ServiceCall.fetchParagraphs])
    else
      let built := buildItems headings
      match svc.resolveRanges built.2 with
      | Except.error e =>
          (ScanResult.Failed e,
           [ServiceCall.fetchParagraphs, ServiceCall.resolveRanges built.2])
      | Except.ok texts =>
          if built.1.length = 0 then
            (ScanResult.NoDirectives,
             [ServiceCall.fetchParagraphs, ServiceCall.resolveRanges built.2])
          else
            (ScanResult.Directives ((fillPayloads built.1 texts).map Prod.snd),
             [ServiceCall.fetchParagraphs, ServiceCall.resolveRanges built.2])

/-- What `copyTextToClipboard` did: the text handed to
`navigator.clipboard.writeText` (if any) and the final status message. -/
structure CopyResult where
  attemptedWrite : Option String
  status : String
deriving Repr, DecidableEq

/-- `copyTextToClipboard` (taskpane.ts lines 152-181), with clipboard success
abstracted as a boolean: an empty `textToCopy` warns and returns without any
clipboard write; otherwise the text is written (or the write error caught). -/
def copyTextToClipboard (clipboardOk : Bool) (textToCopy buttonText : String) : CopyResult :=
  if strLength textToCopy = 0 then
    { attemptedWrite := none, status := "Warning: No text found to copy." }
  else if clipboardOk then
    { attemptedWrite := some textToCopy
      status := "Copied \"" ++ buttonText ++ "\" to clipboard!" }
  else
    { attemptedWrite := some textToCopy, status := "Error! See console for details." }

/-! ### Helper lemmas about the heading classifier -/

theorem allHeadingsAux_eq_nil (ps : List Paragraph) (i : Nat)
    (h : ∀ p ∈ ps, isHeadingStyle p.styleBuiltIn = false) :
    allHeadingsAux ps i = [] := by
  induction ps generalizing i with
  | nil => rfl
  | cons p ps ih =>
    have hp := h p (List.mem_cons_self _ _)
    simp only [allHeadingsAux, hp, Bool.false_eq_true, if_false]
    exact ih _ fun q hq => h q (List.mem_cons_of_mem _ hq)

theorem mem_allHeadingsAux (ps : List Paragraph) (i : Nat) (h : Heading) :
    h ∈ allHeadingsAux ps i ↔
      ∃ j p, ps[j]? = some p ∧ isHeadingStyle p.styleBuiltIn = true ∧
        h = { index := i + j, text := p.text } := by
  induction ps generalizing i with
  | nil => simp [allHeadingsAux]
  | cons q ps ih =>
    by_cases hq : isHeadingStyle q.styleBuiltIn
    · simp only [allHeadingsAux, hq, if_true, List.mem_cons, ih]
      constructor
      · rintro (rfl | ⟨j, p, hj, hp, rfl⟩)
        · exact ⟨0, q, by simp, hq, by simp⟩
        · exact ⟨j + 1, p, by simpa using hj, hp, by simp [Nat.add_assoc, Nat.add_comm 1 j]⟩
      · rintro ⟨j, p, hj, hp, rfl⟩
        cases j with
        | zero =>
          simp only [List.getElem?_cons_zero, Option.some.injEq] at hj
          subst hj; left; simp
        | succ j =>
          simp only [List.getElem?_cons_succ] at hj
          right
          exact ⟨j, p, hj, hp, by simp [Nat.add_assoc, Nat.add_comm 1 j]⟩
    · simp only [allHeadingsAux, hq, Bool.false_eq_true, if_false, ih]
      constructor
      · rintro ⟨j, p, hj, hp, rfl⟩
        exact ⟨j + 1, p, by simpa using hj, hp, by simp [Nat.add_assoc, Nat.add_comm 1 j]⟩
      · rintro ⟨j, p, hj, hp, rfl⟩
        cases j with
        | zero =>
          simp only [List.getElem?_cons_zero, Option.some.injEq] at hj
          subst hj
          simp [hp] at hq
        | succ j =>
          simp only [List.getElem?_cons_succ] at hj
          exact ⟨j, p, hj, hp, by simp [Nat.add_assoc, Nat.add_comm 1 j]⟩

theorem allHeadingsAux_index_ge (ps : List Paragraph) (i : Nat) :
    ∀ h ∈ allHeadingsAux ps i, i ≤ h.index := by
  intro h hmem
  obtain ⟨j, p, _, _, rfl⟩ := (mem_allHeadingsAux ps i h).1 hmem
  exact Nat.le_add_right i j

theorem allHeadingsAux_index_pairwise (ps : List Paragraph) (i : Nat) :
    ((allHeadingsAux ps i).map Heading.index).Pairwise (· < ·) := by
  induction ps generalizing i with
  | nil => simp [allHeadingsAux]
  | cons p ps ih =>
    by_cases hp : isHeadingStyle p.styleBuiltIn
    · simp only [allHeadingsAux, hp, if_true, List.map_cons, List.pairwise_cons]
      refine ⟨?_, ih (i + 1)⟩
      intro x hx
      obtain ⟨h, hh, rfl⟩ := List.mem_map.1 hx
      exact Nat.lt_of_lt_of_le (Nat.lt_succ_self i) (allHeadingsAux_index_ge ps (i + 1) h hh)
    · simp only [allHeadingsAux, hp, Bool.false_eq_true, if_false]
      exact ih (i + 1)

/-! ### Helper lemmas about the classification loop -/

theorem buildItemsAux_ranges_length (hs : List Heading) (i : Nat) :
    (buildItemsAux hs i).2.length = (hs.filter isButtonHeading).length := by
  induction hs generalizing i with
  | nil => rfl
  | cons h rest ih =>
    by_cases hb : isButtonHeading h
    · simp [buildItemsAux, List.filter_cons, hb, ih]
    · by_cases hl : isLabelHeading h
      · simp [buildItemsAux, List.filter_cons, hb, hl, ih]
      · simp [buildItemsAux, List.filter_cons, hb, hl, ih]

theorem buildItemsAux_items_length (hs : List Heading) (i : Nat) :
    (buildItemsAux hs i).1.length = (hs.filter isMarkedHeading).length := by
  induction hs generalizing i with
  | nil => rfl
  | cons h rest ih =>
    by_cases hb : isButtonHeading h
    · simp [buildItemsAux, List.filter_cons, isMarkedHeading, hb, ih]
    · by_cases hl : isLabelHeading h
      · simp [buildItemsAux, List.filter_cons, isMarkedHeading, hb, hl, ih]
      · simp [buildItemsAux, List.filter_cons, isMarkedHeading, hb, hl, ih]

theorem buildItemsAux_fst_ge (hs : List Heading) (i : Nat) :
    ∀ p ∈ (buildItemsAux hs i).1.map Prod.fst, i ≤ p := by
  induction hs generalizing i with
  | nil => simp [buildItemsAux]
  | cons h rest ih =>
    intro p hp
    have step : ∀ q, q ∈ (buildItemsAux rest (i + 1)).1.map Prod.fst → i ≤ q := by
      intro q hq
      exact Nat.le_of_succ_le (ih (i + 1) q hq)
    by_cases hb : isButtonHeading h
    · simp only [buildItemsAux, hb, if_true, List.map_cons, List.mem_cons] at hp
      rcases hp with rfl | hp
      · exact Nat.le_refl _
      · exact step p hp
    · by_cases hl : isLabelHeading h
      · simp only [buildItemsAux, hb, hl, Bool.false_eq_true, if_false, if_true,
          List.map_cons, List.mem_cons] at hp
        rcases hp with rfl | hp
        · exact Nat.le_refl _
        · exact step p hp
      · simp only [buildItemsAux, hb, hl, Bool.false_eq_true, if_false] at hp
        exact step p hp

theorem buildItemsAux_fst_pairwise (hs : List Heading) (i : Nat) :
    ((buildItemsAux hs i).1.map Prod.fst).Pairwise (· < ·) := by
  induction hs generalizing i with
  | nil => simp [buildItemsAux]
  | cons h rest ih =>
    have head_lt : ∀ q ∈ (buildItemsAux rest (i + 1)).1.map Prod.fst, i < q := by
      intro q hq
      exact Nat.lt_of_lt_of_le (Nat.lt_succ_self i) (buildItemsAux_fst_ge rest (i + 1) q hq)
    by_cases hb : isButtonHeading h
    · simp only [buildItemsAux, hb, if_true, List.map_cons, List.pairwise_cons]
      exact ⟨head_lt, ih (i + 1)⟩
    · by_cases hl : isLabelHeading h
      · simp only [buildItemsAux, hb, hl, Bool.false_eq_true, if_false, if_true,
          List.map_cons, List.pairwise_cons]
        exact ⟨head_lt, ih (i + 1)⟩
      · simp only [buildItemsAux, hb, hl, Bool.false_eq_true, if_false]
        exact ih (i + 1)

theorem buildItemsAux_getElem_char (hs : List Heading) (i k p : Nat) (item : UIItem)
    (hk : (buildItemsAux hs i).1[k]? = some (p, item)) :
    ∃ j h, hs[j]? = some h ∧ p = i + j ∧
      ((isButtonHeading h = true ∧
          item = UIItem.buttonStub (displayText h) (descFor h hs[j + 1]?)) ∨
       (isButtonHeading h = false ∧ isLabelHeading h = true ∧
          item = UIItem.label (displayText h))) := by
  induction hs generalizing i k with
  | nil => simp [buildItemsAux] at hk
  | cons h rest ih =>
    have tailcase : ∀ k' : Nat, (buildItemsAux rest (i + 1)).1[k']? = some (p, item) →
        ∃ j h', (h :: rest)[j]? = some h' ∧ p = i + j ∧
          ((isButtonHeading h' = true ∧
              item = UIItem.buttonStub (displayText h') (descFor h' (h :: rest)[j + 1]?)) ∨
           (isButtonHeading h' = false ∧ isLabelHeading h' = true ∧
              item = UIItem.label (displayText h'))) := by
      intro k' hk'
      obtain ⟨j, h', hj, hp, hcase⟩ := ih (i + 1) k' hk'
      refine ⟨j + 1, h', by simpa using hj, by omega, ?_⟩
      simpa using hcase
    by_cases hb : isButtonHeading h
    · simp only [buildItemsAux, hb, if_true] at hk
      cases k with
      | zero =>
        simp only [List.getElem?_cons_zero, Option.some.injEq, Prod.mk.injEq] at hk
        obtain ⟨rfl, rfl⟩ := hk
        refine ⟨0, h, by simp, by omega, Or.inl ⟨hb, ?_⟩⟩
        have : rest.head? = rest[0]? := by cases rest <;> simp
        simp [this]
      | succ k => exact tailcase k (by simpa using hk)
    · by_cases hl : isLabelHeading h
      · simp only [buildItemsAux, hb, hl, Bool.false_eq_true, if_false, if_true] at hk
        cases k with
        | zero =>
          simp only [List.getElem?_cons_zero, Option.some.injEq, Prod.mk.injEq] at hk
          obtain ⟨rfl, rfl⟩ := hk
          exact ⟨0, h, by simp, by omega, Or.inr ⟨by simpa using hb, hl, rfl⟩⟩
        | succ k => exact tailcase k (by simpa using hk)
      · simp only [buildItemsAux, hb, hl, Bool.false_eq_true, if_false] at hk
        exact tailcase k hk

theorem buildItemsAux_mem_of_button (hs : List Heading) (i j : Nat) (h : Heading)
    (hj : hs[j]? = some h) (hb : isButtonHeading h = true) :
    (i + j, UIItem.buttonStub (displayText h) (descFor h hs[j + 1]?)) ∈ (buildItemsAux hs i).1 ∧
    descFor h hs[j + 1]? ∈ (buildItemsAux hs i).2 := by
  induction hs generalizing i j with
  | nil => simp at hj
  | cons h0 rest ih =>
    cases j with
    | zero =>
      simp only [List.getElem?_cons_zero, Option.some.injEq] at hj
      subst hj
      have hhead : rest.head? = rest[0]? := by cases rest <;> simp
      simp [buildItemsAux, hb, hhead]
    | succ j =>
      simp only [List.getElem?_cons_succ] at hj
      have := ih (i + 1) j hj
      have harith : i + 1 + j = i + (j + 1) := by omega
      rw [harith] at this
      by_cases hb0 : isButtonHeading h0
      · simp only [buildItemsAux, hb0, if_true, List.mem_cons, List.getElem?_cons_succ]
        exact ⟨Or.inr this.1, Or.inr this.2⟩
      · by_cases hl0 : isLabelHeading h0
        · simp only [buildItemsAux, hb0, hl0, Bool.false_eq_true, if_false, if_true,
            List.mem_cons, List.getElem?_cons_succ]
          exact ⟨Or.inr this.1, this.2⟩
        · simp only [buildItemsAux, hb0, hl0, Bool.false_eq_true, if_false,
            List.getElem?_cons_succ]
          exact this

theorem buildItemsAux_mem_of_label (hs : List Heading) (i j : Nat) (h : Heading)
    (hj : hs[j]? = some h) (hb : isButtonHeading h = false) (hl : isLabelHeading h = true) :
    (i + j, UIItem.label (displayText h)) ∈ (buildItemsAux hs i).1 := by
  induction hs generalizing i j with
  | nil => simp at hj
  | cons h0 rest ih =>
    cases j with
    | zero =>
      simp only [List.getElem?_cons_zero, Option.some.injEq] at hj
      subst hj
      simp [buildItemsAux, hb, hl]
    | succ j =>
      simp only [List.getElem?_cons_succ] at hj
      have := ih (i + 1) j hj
      have harith : i + 1 + j = i + (j + 1) := by omega
      rw [harith] at this
      by_cases hb0 : isButtonHeading h0
      · simp only [buildItemsAux, hb0, if_true, List.mem_cons]
        exact Or.inr this
      · by_cases hl0 : isLabelHeading h0
        · simp only [buildItemsAux, hb0, hl0, Bool.false_eq_true, if_false, if_true,
            List.mem_cons]
          exact Or.inr this
        · simp only [buildItemsAux, hb0, hl0, Bool.false_eq_true, if_false]
          exact this

theorem buildItemsAux_ranges_getElem (hs : List Heading) (i j : Nat) (h : Heading)
    (hj : hs[j]? = some h) (hb : isButtonHeading h = true) :
    (buildItemsAux hs i).2[((hs.take j).filter isButtonHeading).length]? =
      some (descFor h hs[j + 1]?) := by
  induction hs generalizing i j with
  | nil => simp at hj
  | cons h0 rest ih =>
    cases j with
    | zero =>
      simp only [List.getElem?_cons_zero, Option.some.injEq] at hj
      subst hj
      have hhead : rest.head? = rest[0]? := by cases rest <;> simp
      simp [buildItemsAux, hb, hhead]
    | succ j =>
      simp only [List.getElem?_cons_succ] at hj
      have tailstep := ih (i + 1) j hj
      by_cases hb0 : isButtonHeading h0
      · simp only [buildItemsAux, hb0, if_true, List.take_succ_cons, List.filter_cons_of_pos,
          List.length_cons, List.getElem?_cons_succ, List.getElem?_cons_succ]
        exact tailstep
      · have hb0' : isButtonHeading h0 = false := by simpa using hb0
        by_cases hl0 : isLabelHeading h0
        · simp only [buildItemsAux, hb0, hl0, Bool.false_eq_true, if_false, if_true,
            List.take_succ_cons, List.filter_cons, hb0']
          simpa using tailstep
        · simp only [buildItemsAux, hb0, hl0, Bool.false_eq_true, if_false,
            List.take_succ_cons, List.filter_cons, hb0']
          simpa using tailstep

theorem buildItemsAux_eq_nil_of_unmarked (hs : List Heading) (i : Nat)
    (hm : ∀ h ∈ hs, isMarkedHeading h = false) :
    buildItemsAux hs i = ([], []) := by
  induction hs generalizing i with
  | nil => rfl
  | cons h rest ih =>
    have hh := hm h (List.mem_cons_self _ _)
    simp only [isMarkedHeading, Bool.or_eq_false_iff] at hh
    simp only [buildItemsAux, hh.1, hh.2, Bool.false_eq_true, if_false]
    exact ih _ fun q hq => hm q (List.mem_cons_of_mem _ hq)

theorem buildItemsAux_of_no_buttons (hs : List Heading) (i : Nat)
    (hnb : ∀ h ∈ hs, isButtonHeading h = false) :
    (buildItemsAux hs i).2 = [] ∧
    ∀ e ∈ (buildItemsAux hs i).1, ∃ t, e.2 = UIItem.label t := by
  induction hs generalizing i with
  | nil => simp [buildItemsAux]
  | cons h rest ih =>
    have hh := hnb h (List.mem_cons_self _ _)
    have tail := ih (i + 1) fun q hq => hnb q (List.mem_cons_of_mem _ hq)
    by_cases hl : isLabelHeading h
    · simp only [buildItemsAux, hh, hl, Bool.false_eq_true, if_false, if_true]
      refine ⟨tail.1, ?_⟩
      intro e he
      rcases List.mem_cons.1 he with rfl | he
      · exact ⟨displayText h, rfl⟩
      · exact tail.2 e he
    · simp only [buildItemsAux, hh, hl, Bool.false_eq_true, if_false]
      exact tail

/-! ### Helper lemmas about payload binding -/

theorem fillPayloads_length (items : List (Nat × UIItem)) (texts : List String) :
    (fillPayloads items texts).length = items.length := by
  induction items generalizing texts with
  | nil => rfl
  | cons e rest ih =>
    obtain ⟨p, item⟩ := e
    cases item with
    | label t => simp [fillPayloads, ih]
    | buttonStub t d => simp [fillPayloads, ih]

theorem fillPayloads_map_fst (items : List (Nat × UIItem)) (texts : List String) :
    (fillPayloads items texts).map Prod.fst = items.map Prod.fst := by
  induction items generalizing texts with
  | nil => rfl
  | cons e rest ih =>
    obtain ⟨p, item⟩ := e
    cases item with
    | label t => simp [fillPayloads, ih]
    | buttonStub t d => simp [fillPayloads, ih]

theorem fillPayloads_getElem_label (items : List (Nat × UIItem)) (texts : List String)
    (k p : Nat) (t : String)
    (hk : items[k]? = some (p, UIItem.label t)) :
    (fillPayloads items texts)[k]? = some (p, UIDirective.label t) := by
  induction items generalizing texts k with
  | nil => simp at hk
  | cons e rest ih =>
    obtain ⟨q, item⟩ := e
    cases k with
    | zero =>
      simp only [List.getElem?_cons_zero, Option.some.injEq, Prod.mk.injEq] at hk
      obtain ⟨rfl, rfl⟩ := hk
      simp [fillPayloads]
    | succ k =>
      simp only [List.getElem?_cons_succ] at hk
      cases item with
      | label t0 => simpa [fillPayloads] using ih texts k hk
      | buttonStub t0 d0 => simpa [fillPayloads] using ih texts.tail k hk

theorem fillPayloads_getElem_button (items : List (Nat × UIItem)) (texts : List String)
    (k p : Nat) (t : String) (d : ContentRangeDescriptor)
    (hk : items[k]? = some (p, UIItem.buttonStub t d)) :
    (fillPayloads items texts)[k]? =
      some (p, UIDirective.button t
        (strTrim ((texts.drop
          ((items.take k).filter (fun e => e.2.isButtonStub)).length).headD ""))) := by
  induction items generalizing texts k with
  | nil => simp at hk
  | cons e rest ih =>
    obtain ⟨q, item⟩ := e
    cases k with
    | zero =>
      simp only [List.getElem?_cons_zero, Option.some.injEq, Prod.mk.injEq] at hk
      obtain ⟨rfl, rfl⟩ := hk
      simp [fillPayloads]
    | succ k =>
      simp only [List.getElem?_cons_succ] at hk
      cases item with
      | label t0 =>
        have step := ih texts k hk
        simpa [fillPayloads, List.take_succ_cons, List.filter_cons, UIItem.isButtonStub]
          using step
      | buttonStub t0 d0 =>
        have step := ih texts.tail k hk
        have hdrop : ∀ n : Nat, (texts.drop (n + 1)) = texts.tail.drop n := by
          intro n
          cases texts with
          | nil => simp
          | cons a as => simp
        simp only [fillPayloads, List.getElem?_cons_succ, List.take_succ_cons,
          List.filter_cons, UIItem.isButtonStub, if_true, List.length_cons]
        rw [Nat.add_comm _ 1, Nat.add_comm]
        rw [← hdrop] at step
        simpa using step

theorem fillPayloads_all_labels (items : List (Nat × UIItem)) (texts : List String)
    (hall : ∀ e ∈ items, ∃ t, e.2 = UIItem.label t) :
    ∀ dr ∈ (fillPayloads items texts).map Prod.snd, ∃ t, dr = UIDirective.label t := by
  induction items generalizing texts with
  | nil => simp [fillPayloads]
  | cons e rest ih =>
    obtain ⟨p, item⟩ := e
    obtain ⟨t, ht⟩ := hall (p, item) (List.mem_cons_self _ _)
    simp only at ht
    subst ht
    intro dr hdr
    simp only [fillPayloads, List.map_cons, List.mem_cons] at hdr
    rcases hdr with rfl | hdr
    · exact ⟨t, rfl⟩
    · exact ih texts (fun q hq => hall q (List.mem_cons_of_mem _ hq)) dr hdr

/-! ### Unfolding the scan -/

theorem scanAndBuildUI_fetch_error (svc : DocService) (e : String)
    (h : svc.fetchParagraphs = Except.error e) :
    scanAndBuildUI svc = (ScanResult.Failed e, [ServiceCall.fetchParagraphs]) := by
  unfold scanAndBuildUI
  rw [h]

theorem scanAndBuildUI_fetch_ok (svc : DocService) (ps : List Paragraph)
    (h : svc.fetchParagraphs = Except.ok ps) :
    scanAndBuildUI svc =
      if (allHeadings ps).length = 0 then
        (ScanResult.NoHeadings, [ServiceCall.fetchParagraphs])
      else
        match svc.resolveRanges (buildItems (allHeadings ps)).2 with
        | Except.error e =>
            (ScanResult.Failed e,
             [ServiceCall.fetchParagraphs,
              ServiceCall.resolveRanges (buildItems (allHeadings ps)).2])
        | Except.ok texts =>
            if (buildItems (allHeadings ps)).1.length = 0 then
              (ScanResult.NoDirectives,
               [ServiceCall.fetchParagraphs,
                ServiceCall.resolveRanges (buildItems (allHeadings ps)).2])
            else
              (ScanResult.Directives
                 ((fillPayloads (buildItems (allHeadings ps)).1 texts).map Prod.snd),
               [ServiceCall.fetchParagraphs,
                ServiceCall.resolveRanges (buildItems (allHeadings ps)).2]) := by
  unfold scanAndBuildUI
  rw [h]

/-! ### Concrete documents and services used as witnesses -/

/-- The worked example document of the specification. -/
def exParagraphs : List Paragraph :=
  [{ styleBuiltIn := "Heading1", text := "Intro" },
   { styleBuiltIn := "Heading2", text := "*Explain" },
   { styleBuiltIn := "Normal", text := "body text A" },
   { styleBuiltIn := "Heading2", text := "_Section" },
   { styleBuiltIn := "Heading2", text := "*Summarize" },
   { styleBuiltIn := "Normal", text := "body text B" }]

/-- A healthy service over the worked example document. -/
def exService : DocService :=
  { fetchParagraphs := Except.ok exParagraphs
    resolveRanges := fun ds => Except.ok (ds.map fun _ => " body text A ") }

/-- A document with no heading-styled paragraph. -/
def exPlainParagraphs : List Paragraph :=
  [{ styleBuiltIn := "Normal", text := "just text" },
   { styleBuiltIn := "ListParagraph", text := "*not a heading" }]

/-- A healthy service over the headingless document. -/
def exPlainService : DocService :=
  { fetchParagraphs := Except.ok exPlainParagraphs
    resolveRanges := fun ds => Except.ok (ds.map fun _ => "x") }

/-- A document whose headings carry no `*`/`_` marker. -/
def exUnmarkedParagraphs : List Paragraph :=
  [{ styleBuiltIn := "Heading1", text := "Intro" },
   { styleBuiltIn := "Normal", text := "body" }]

/-- A healthy service over the unmarked-headings document. -/
def exUnmarkedService : DocService :=
  { fetchParagraphs := Except.ok exUnmarkedParagraphs
    resolveRanges := fun ds => Except.ok (ds.map fun _ => "x") }

/-- A service whose range-resolution round trip fails. -/
def exResolveFailService : DocService :=
  { fetchParagraphs := Except.ok exParagraphs
    resolveRanges := fun _ => Except.error "network" }

/-- The empty-body-button document of the specification. -/
def exEmptyBodyParagraphs : List Paragraph :=
  [{ styleBuiltIn := "Heading1", text := "*Empty" },
   { styleBuiltIn := "Heading1", text := "*Next" }]

/-- A service over the empty-body-button document: every range resolves to
whitespace. -/
def exEmptyBodyService : DocService :=
  { fetchParagraphs := Except.ok exEmptyBodyParagraphs
    resolveRanges := fun ds => Except.ok (ds.map fun _ => "  ") }

/-- A document whose only heading is a Label. -/
def exLabelOnlyParagraphs : List Paragraph :=
  [{ styleBuiltIn := "Heading1", text := "_Only" },
   { styleBuiltIn := "Normal", text := "body" }]

/-- A healthy service over the label-only document. -/
def exLabelOnlyService : DocService :=
  { fetchParagraphs := Except.ok exLabelOnlyParagraphs
    resolveRanges := fun ds => Except.ok (ds.map fun _ => "x") }

/-- A document whose headings are bare markers. -/
def exBareMarkerParagraphs : List Paragraph :=
  [{ styleBuiltIn := "Heading1", text := "*" },
   { styleBuiltIn := "Heading2", text := "_" }]

/-! ### The claims -/

/-- **C1.** For every scan, text retrieval is batched: when at least one
Button heading exists, the range-resolution call to the document service is
made exactly once per scan, with a batch containing one descriptor per Button
heading, and the scan has exactly two suspension points against the service
(one paragraph-metadata fetch, then one range-text resolution) — never one
suspension per heading or per directive. -/
theorem scan_resolution_batched_once (svc : DocService) (ps : List Paragraph)
    (hfetch : svc.fetchParagraphs = Except.ok ps)
    (hbtn : 0 < ((allHeadings ps).filter isButtonHeading).length) :
    (scanAndBuildUI svc).2 =
      [ServiceCall.fetchParagraphs,
       ServiceCall.resolveRanges (buildItems (allHeadings ps)).2] ∧
    (buildItems (allHeadings ps)).2.length =
      ((allHeadings ps).filter isButtonHeading).length ∧
    ((scanAndBuildUI svc).2.filter ServiceCall.isResolve).length = 1 ∧
    (scanAndBuildUI svc).2.length = 2 := by
  have hne : ¬ (allHeadings ps).length = 0 := by
    intro h0
    rw [List.length_eq_zero] at h0
    rw [h0] at hbtn
    simp at hbtn
  have hcount : (buildItems (allHeadings ps)).2.length =
      ((allHeadings ps).filter isButtonHeading).length :=
    buildItemsAux_ranges_length (allHeadings ps) 0
  rw [scanAndBuildUI_fetch_ok svc ps hfetch]
  simp only [hne, if_false]
  cases hres : svc.resolveRanges (buildItems (allHeadings ps)).2 with
  | error e => simp [hcount, ServiceCall.isResolve]
  | ok texts =>
    by_cases hlen : (buildItems (allHeadings ps)).1.length = 0
    · simp only [hlen, if_true]
      simp [hcount, ServiceCall.isResolve]
    · simp only [hlen, if_false]
      simp [hcount, ServiceCall.isResolve]

/-- Witness for C1 on the specification's worked example. -/
theorem scan_resolution_batched_once_witness :
    (scanAndBuildUI exService).2 =
      [ServiceCall.fetchParagraphs,
       ServiceCall.resolveRanges (buildItems (allHeadings exParagraphs)).2] ∧
    (buildItems (allHeadings exParagraphs)).2.length =
      ((allHeadings exParagraphs).filter isButtonHeading).length ∧
    ((scanAndBuildUI exService).2.filter ServiceCall.isResolve).length = 1 ∧
    (scanAndBuildUI exService).2.length = 2 :=
  scan_resolution_batched_once exService exParagraphs rfl (by decide)

/-- **C2.** For every Button heading at position `j` of the heading sequence,
the content range produced for it (the `j`-th-button entry of the batch)
starts at the end boundary of that heading's own paragraph and ends at the
start boundary of the heading at position `j+1` regardless of that next
heading's marker type, or at the end-of-document boundary when `j` is last. -/
theorem button_range_ends_at_next_heading (ps : List Paragraph) (j : Nat) (h : Heading)
    (hj : (allHeadings ps)[j]? = some h)
    (hb : isButtonHeading h = true) :
    (buildItems (allHeadings ps)).2[(((allHeadings ps).take j).filter
        isButtonHeading).length]? =
      some { startB := Boundary.parEnd h.index
             endB :=
               match (allHeadings ps)[j + 1]? with
               | some nh => Boundary.parStart nh.index
               | none => Boundary.docEnd } := by
  have hchar := buildItemsAux_ranges_getElem (allHeadings ps) 0 j h hj hb
  have hdesc : descFor h (allHeadings ps)[j + 1]? =
      { startB := Boundary.parEnd h.index
        endB :=
          match (allHeadings ps)[j + 1]? with
          | some nh => Boundary.parStart nh.index
          | none => Boundary.docEnd } := by
    cases (allHeadings ps)[j + 1]? <;> rfl
  rw [hdesc] at hchar
  exact hchar

/-- Witness for C2: the button at heading position 1 of the worked example is
closed by the Label heading that follows it. -/
theorem button_range_ends_at_next_heading_witness :
    (buildItems (allHeadings exParagraphs)).2[(((allHeadings exParagraphs).take 1).filter
        isButtonHeading).length]? =
      some { startB := Boundary.parEnd 1, endB := Boundary.parStart 3 } := by
  have h := button_range_ends_at_next_heading exParagraphs 1
    { index := 1, text := "*Explain" } (by decide) (by decide)
  exact h.trans (by decide)

/-- **C4.** For every paragraph stream containing zero heading-styled
paragraphs, the scan returns the distinct `NoHeadings` result and terminates
early: no second service call is made (so no range resolution) and no
directives are produced. -/
theorem scan_no_headings_early_return (svc : DocService) (ps : List Paragraph)
    (hfetch : svc.fetchParagraphs = Except.ok ps)
    (hnone : ∀ p ∈ ps, isHeadingStyle p.styleBuiltIn = false) :
    scanAndBuildUI svc = (ScanResult.NoHeadings, [ServiceCall.fetchParagraphs]) ∧
    (∀ c ∈ (scanAndBuildUI svc).2, c.isResolve = false) ∧
    (scanAndBuildUI svc).1.directives = [] ∧
    ScanResult.NoHeadings ≠ ScanResult.NoDirectives := by
  have h0 : allHeadings ps = [] := allHeadingsAux_eq_nil ps 0 hnone
  rw [scanAndBuildUI_fetch_ok svc ps hfetch]
  simp [h0, ScanResult.directives, ServiceCall.isResolve]

/-- Witness for C4 on a document with no heading-styled paragraph. -/
theorem scan_no_headings_early_return_witness :
    scanAndBuildUI exPlainService = (ScanResult.NoHeadings, [ServiceCall.fetchParagraphs]) ∧
    (∀ c ∈ (scanAndBuildUI exPlainService).2, c.isResolve = false) ∧
    (scanAndBuildUI exPlainService).1.directives = [] ∧
    ScanResult.NoHeadings ≠ ScanResult.NoDirectives :=
  scan_no_headings_early_return exPlainService exPlainParagraphs rfl (by decide)

/-- **C5.** For every paragraph stream with at least one heading but where no
trimmed heading text starts with `*` or `_`, the scan returns `NoDirectives`,
distinct from `NoHeadings`, as a normal (non-error) terminal outcome with
zero directives emitted. -/
theorem scan_no_markers_no_directives (svc : DocService) (ps : List Paragraph)
    (texts : List String)
    (hfetch : svc.fetchParagraphs = Except.ok ps)
    (hne : allHeadings ps ≠ [])
    (hnom : ∀ h ∈ allHeadings ps, isMarkedHeading h = false)
    (hres : svc.resolveRanges [] = Except.ok texts) :
    (scanAndBuildUI svc).1 = ScanResult.NoDirectives ∧
    ScanResult.NoDirectives ≠ ScanResult.NoHeadings ∧
    (scanAndBuildUI svc).1.directives = [] := by
  have hbuilt : buildItems (allHeadings ps) = ([], []) :=
    buildItemsAux_eq_nil_of_unmarked (allHeadings ps) 0 hnom
  have hlen : ¬ (allHeadings ps).length = 0 := by
    simpa [List.length_eq_zero] using hne
  rw [scanAndBuildUI_fetch_ok svc ps hfetch]
  simp only [hlen, if_false, hbuilt]
  rw [hres]
  simp [ScanResult.directives]

/-- Witness for C5 on a document whose only heading is unmarked. -/
theorem scan_no_markers_no_directives_witness :
    (scanAndBuildUI exUnmarkedService).1 = ScanResult.NoDirectives ∧
    ScanResult.NoDirectives ≠ ScanResult.NoHeadings ∧
    (scanAndBuildUI exUnmarkedService).1.directives = [] :=
  scan_no_markers_no_directives exUnmarkedService exUnmarkedParagraphs [] rfl
    (by decide) (by decide) rfl

/-- **C6.** If either batch call to the document service fails, the scan
terminates as `Failed(reason)`: the partial scan state is discarded and zero
directives are emitted (no partial or degraded directive sequence). -/
theorem scan_failure_discards_scan (svc : DocService) :
    (∀ e, svc.fetchParagraphs = Except.error e →
        (scanAndBuildUI svc).1 = ScanResult.Failed e ∧
        (scanAndBuildUI svc).1.directives = []) ∧
    (∀ ps e, svc.fetchParagraphs = Except.ok ps → allHeadings ps ≠ [] →
        svc.resolveRanges (buildItems (allHeadings ps)).2 = Except.error e →
        (scanAndBuildUI svc).1 = ScanResult.Failed e ∧
        (scanAndBuildUI svc).1.directives = []) := by
  constructor
  · intro e he
    rw [scanAndBuildUI_fetch_error svc e he]
    simp [ScanResult.directives]
  · intro ps e hfetch hne hres
    have hlen : ¬ (allHeadings ps).length = 0 := by
      simpa [List.length_eq_zero] using hne
    rw [scanAndBuildUI_fetch_ok svc ps hfetch]
    simp only [hlen, if_false]
    rw [hres]
    simp [ScanResult.directives]

/-- Witness for C6: a failing range-resolution call yields `Failed` with no
directives. -/
theorem scan_failure_discards_scan_witness :
    (scanAndBuildUI exResolveFailService).1 = ScanResult.Failed "network" ∧
    (scanAndBuildUI exResolveFailService).1.directives = [] :=
  (scan_failure_discards_scan exResolveFailService).2 exParagraphs "network" rfl
    (by decide) rfl

/-- **C3.** For every paragraph stream, directive order preserves document
order: the derived heading sequence lists paragraphs in stream order (indices
strictly increasing, sound and complete for heading-styled paragraphs), the
owning-heading positions of the emitted items are strictly increasing (no
reordering or deduplication), payload binding preserves that order, and the
emitted positions are exactly the positions of marked headings (no skipping). -/
theorem scan_preserves_document_order (ps : List Paragraph) (texts : List String) :
    ((allHeadings ps).map Heading.index).Pairwise (· < ·) ∧
    (∀ h ∈ allHeadings ps, ∃ p, ps[h.index]? = some p ∧
        isHeadingStyle p.styleBuiltIn = true ∧ h.text = p.text) ∧
    (∀ i p, ps[i]? = some p → isHeadingStyle p.styleBuiltIn = true →
        ({ index := i, text := p.text } : Heading) ∈ allHeadings ps) ∧
    ((buildItems (allHeadings ps)).1.map Prod.fst).Pairwise (· < ·) ∧
    ((fillPayloads (buildItems (allHeadings ps)).1 texts).map Prod.fst =
        (buildItems (allHeadings ps)).1.map Prod.fst) ∧
    (∀ j h, (allHeadings ps)[j]? = some h → isMarkedHeading h = true →
        j ∈ (buildItems (allHeadings ps)).1.map Prod.fst) ∧
    (∀ j, j ∈ (buildItems (allHeadings ps)).1.map Prod.fst →
        ∃ h, (allHeadings ps)[j]? = some h ∧ isMarkedHeading h = true) := by
  refine ⟨allHeadingsAux_index_pairwise ps 0, ?_, ?_, buildItemsAux_fst_pairwise _ 0,
    fillPayloads_map_fst _ texts, ?_, ?_⟩
  · intro h hmem
    obtain ⟨j, p, hj, hp, rfl⟩ := (mem_allHeadingsAux ps 0 h).1 hmem
    exact ⟨p, by simpa using hj, hp, rfl⟩
  · intro i p hi hp
    exact (mem_allHeadingsAux ps 0 _).2 ⟨i, p, hi, hp, by simp⟩
  · intro j h hj hm
    have hm' : isButtonHeading h = true ∨ isLabelHeading h = true := by
      simpa [isMarkedHeading] using hm
    rcases hm' with hb | hl
    · have hmem := (buildItemsAux_mem_of_button (allHeadings ps) 0 j h hj hb).1
      exact List.mem_map.2 ⟨_, hmem, by simp⟩
    · by_cases hb : isButtonHeading h
      · have hmem := (buildItemsAux_mem_of_button (allHeadings ps) 0 j h hj hb).1
        exact List.mem_map.2 ⟨_, hmem, by simp⟩
      · have hmem := buildItemsAux_mem_of_label (allHeadings ps) 0 j h hj
          (by simpa using hb) hl
        exact List.mem_map.2 ⟨_, hmem, by simp⟩
  · intro j hj
    obtain ⟨⟨j', item⟩, hmem, hfst⟩ := List.mem_map.1 hj
    simp only at hfst
    subst hfst
    obtain ⟨k, hk⟩ := List.getElem?_of_mem hmem
    obtain ⟨j0, h, hj0, hjeq, hcase⟩ :=
      buildItemsAux_getElem_char (allHeadings ps) 0 k j' item hk
    have hjj : j' = j0 := by omega
    refine ⟨h, by rw [hjj]; exact hj0, ?_⟩
    rcases hcase with ⟨hb, _⟩ | ⟨_, hl, _⟩
    · simp [isMarkedHeading, hb]
    · simp [isMarkedHeading, hl]

/-- Witness for C3: heading indices of the worked example are strictly
increasing. -/
theorem scan_preserves_document_order_witness :
    ((allHeadings exParagraphs).map Heading.index).Pairwise (· < ·) :=
  (scan_preserves_document_order exParagraphs []).1

/-- **C7.** A Button heading whose content range resolves to text that is
empty after trimming still yields its Button directive with an empty payload
(the scan succeeds and the directive is not dropped); the emptiness surfaces
only in the copy action, which reports a warning and performs no clipboard
write. -/
theorem empty_payload_still_emitted (svc : DocService) (ps : List Paragraph)
    (texts : List String) (k pos : Nat) (lbl : String) (d : ContentRangeDescriptor)
    (ok : Bool)
    (hfetch : svc.fetchParagraphs = Except.ok ps)
    (hres : svc.resolveRanges (buildItems (allHeadings ps)).2 = Except.ok texts)
    (hitem : (buildItems (allHeadings ps)).1[k]? = some (pos, UIItem.buttonStub lbl d))
    (hempty : strTrim ((texts.drop
        (((buildItems (allHeadings ps)).1.take k).filter
          (fun e => e.2.isButtonStub)).length).headD "") = "") :
    ∃ l, (scanAndBuildUI svc).1 = ScanResult.Directives l ∧
      l.length = (buildItems (allHeadings ps)).1.length ∧
      l[k]? = some (UIDirective.button lbl "") ∧
      copyTextToClipboard ok "" lbl =
        { attemptedWrite := none, status := "Warning: No text found to copy." } := by
  have hhs : ¬ (allHeadings ps).length = 0 := by
    intro h0
    rw [List.length_eq_zero] at h0
    rw [h0] at hitem
    simp [buildItems, buildItemsAux] at hitem
  have hlen : ¬ (buildItems (allHeadings ps)).1.length = 0 := by
    intro h0
    rw [List.length_eq_zero] at h0
    rw [h0] at hitem
    simp at hitem
  have hfill := fillPayloads_getElem_button (buildItems (allHeadings ps)).1 texts
    k pos lbl d hitem
  rw [hempty] at hfill
  rw [scanAndBuildUI_fetch_ok svc ps hfetch]
  simp only [hhs, if_false]
  rw [hres]
  simp only [hlen, if_false]
  refine ⟨_, rfl, ?_, ?_, ?_⟩
  · simp [fillPayloads_length]
  · simp [hfill]
  · have h0 : strLength "" = 0 := rfl
    simp [copyTextToClipboard, h0]

/-- Witness for C7: the empty-body button of the specification's example,
with whitespace-only resolved text. -/
theorem empty_payload_still_emitted_witness :
    ∃ l, (scanAndBuildUI exEmptyBodyService).1 = ScanResult.Directives l ∧
      l.length = (buildItems (allHeadings exEmptyBodyParagraphs)).1.length ∧
      l[0]? = some (UIDirective.button "Empty" "") ∧
      copyTextToClipboard true "" "Empty" =
        { attemptedWrite := none, status := "Warning: No text found to copy." } :=
  empty_payload_still_emitted exEmptyBodyService exEmptyBodyParagraphs
    ["  ", "  "] 0 0 "Empty"
    { startB := Boundary.parEnd 0, endB := Boundary.parStart 1 } true
    rfl rfl (by decide) (by decide)

/-- **C8.** Every emitted directive's text values are whitespace-normalized: a
Button's display label is the heading's trimmed text with the leading `*`
stripped and the remainder trimmed again, a Label's text likewise with the
`_` stripped, and a Button's payload is the resolved range text with leading
and trailing whitespace removed. -/
theorem directive_text_normalized (ps : List Paragraph) (texts : List String)
    (k pos : Nat) :
    (∀ item, (buildItems (allHeadings ps)).1[k]? = some (pos, item) →
        ∃ h, (allHeadings ps)[pos]? = some h ∧
          ((∃ d, strStartsWith (strTrim h.text) "*" = true ∧
              item = UIItem.buttonStub (strTrim (strDrop (strTrim h.text) 1)) d) ∨
           (strStartsWith (strTrim h.text) "_" = true ∧
              item = UIItem.label (strTrim (strDrop (strTrim h.text) 1))))) ∧
    (∀ lbl d, (buildItems (allHeadings ps)).1[k]? = some (pos, UIItem.buttonStub lbl d) →
        (fillPayloads (buildItems (allHeadings ps)).1 texts)[k]? =
          some (pos, UIDirective.button lbl
            (strTrim ((texts.drop
              (((buildItems (allHeadings ps)).1.take k).filter
                (fun e => e.2.isButtonStub)).length).headD "")))) := by
  constructor
  · intro item hk
    obtain ⟨j, h, hj, hjeq, hcase⟩ :=
      buildItemsAux_getElem_char (allHeadings ps) 0 k pos item hk
    have hpos : pos = j := by omega
    subst hpos
    refine ⟨h, hj, ?_⟩
    rcases hcase with ⟨hb, hitem⟩ | ⟨_, hl, hitem⟩
    · exact Or.inl ⟨descFor h (allHeadings ps)[pos + 1]?, hb, hitem⟩
    · exact Or.inr ⟨hl, hitem⟩
  · intro lbl d hk
    exact fillPayloads_getElem_button (buildItems (allHeadings ps)).1 texts k pos lbl d hk

/-- Witness for C8 on the worked example: the first emitted item is the
Button for `*Explain`, and its payload is the trimmed resolved text. -/
theorem directive_text_normalized_witness :
    (fillPayloads (buildItems (allHeadings exParagraphs)).1
        [" body text A ", " body text B "])[0]? =
      some (1, UIDirective.button "Explain" "body text A") := by
  have h := (directive_text_normalized exParagraphs
      [" body text A ", " body text B "] 0 1).2 "Explain"
    { startB := Boundary.parEnd 1, endB := Boundary.parStart 3 } (by decide)
  exact h.trans (by decide)

/-- **C9.** When the document has at least one heading but zero Button
headings, the second synchronization is still performed with an empty
descriptor batch: the scan makes two service round trips before returning
`NoDirectives` or the Label-only directive sequence. -/
theorem scan_no_buttons_still_second_roundtrip (svc : DocService) (ps : List Paragraph)
    (hfetch : svc.fetchParagraphs = Except.ok ps)
    (hne : allHeadings ps ≠ [])
    (hnb : ∀ h ∈ allHeadings ps, isButtonHeading h = false) :
    (scanAndBuildUI svc).2 =
      [ServiceCall.fetchParagraphs, ServiceCall.resolveRanges []] ∧
    (∀ texts, svc.resolveRanges [] = Except.ok texts →
      (scanAndBuildUI svc).1 = ScanResult.NoDirectives ∨
      ∃ l, (scanAndBuildUI svc).1 = ScanResult.Directives l ∧
        ∀ dr ∈ l, ∃ t, dr = UIDirective.label t) := by
  have hr : (buildItems (allHeadings ps)).2 = [] :=
    (buildItemsAux_of_no_buttons (allHeadings ps) 0 hnb).1
  have hlab := (buildItemsAux_of_no_buttons (allHeadings ps) 0 hnb).2
  have hlen : ¬ (allHeadings ps).length = 0 := by
    simpa [List.length_eq_zero] using hne
  rw [scanAndBuildUI_fetch_ok svc ps hfetch]
  simp only [hlen, if_false, hr]
  constructor
  · cases hres : svc.resolveRanges [] with
    | error e => rfl
    | ok texts =>
      by_cases h0 : (buildItems (allHeadings ps)).1.length = 0
      · simp [h0]
      · simp [h0]
  · intro texts hres
    rw [hres]
    by_cases h0 : (buildItems (allHeadings ps)).1.length = 0
    · simp [h0]
    · simp only [h0, if_false]
      right
      exact ⟨_, rfl, fillPayloads_all_labels _ texts hlab⟩

/-- Witness for C9 on a document whose only heading is a Label. -/
theorem scan_no_buttons_still_second_roundtrip_witness :
    (scanAndBuildUI exLabelOnlyService).2 =
      [ServiceCall.fetchParagraphs, ServiceCall.resolveRanges []] :=
  (scan_no_buttons_still_second_roundtrip exLabelOnlyService exLabelOnlyParagraphs
    rfl (by decide) (by decide)).1

/-- **C10.** A heading whose trimmed text is exactly the bare marker (`*`
alone or `_` alone) still produces a directive: a Button with empty display
label (whose content range is still queued for resolution) or a Label with
empty text; such headings are never skipped. -/
theorem bare_marker_heading_not_skipped (ps : List Paragraph) (j : Nat) (h : Heading)
    (hj : (allHeadings ps)[j]? = some h) :
    (strTrim h.text = "*" →
        (j, UIItem.buttonStub "" (descFor h (allHeadings ps)[j + 1]?))
            ∈ (buildItems (allHeadings ps)).1 ∧
        descFor h (allHeadings ps)[j + 1]? ∈ (buildItems (allHeadings ps)).2) ∧
    (strTrim h.text = "_" →
        (j, UIItem.label "") ∈ (buildItems (allHeadings ps)).1) := by
  constructor
  · intro hstar
    have hb : isButtonHeading h = true := by
      unfold isButtonHeading headingText
      rw [hstar]
      decide
    have hd : displayText h = "" := by
      unfold displayText headingText
      rw [hstar]
      decide
    have hmem := buildItemsAux_mem_of_button (allHeadings ps) 0 j h hj hb
    rw [hd] at hmem
    simpa using hmem
  · intro hund
    have hb : isButtonHeading h = false := by
      unfold isButtonHeading headingText
      rw [hund]
      decide
    have hl : isLabelHeading h = true := by
      unfold isLabelHeading headingText
      rw [hund]
      decide
    have hd : displayText h = "" := by
      unfold displayText headingText
      rw [hund]
      decide
    have hmem := buildItemsAux_mem_of_label (allHeadings ps) 0 j h hj hb hl
    rw [hd] at hmem
    simpa using hmem

/-- Witness for C10 on a document whose headings are the bare markers. -/
theorem bare_marker_heading_not_skipped_witness :
    ((0, UIItem.buttonStub ""
        (descFor { index := 0, text := "*" } (allHeadings exBareMarkerParagraphs)[1]?))
          ∈ (buildItems (allHeadings exBareMarkerParagraphs)).1) ∧
    ((1, UIItem.label "") ∈ (buildItems (allHeadings exBareMarkerParagraphs)).1) :=
  ⟨((bare_marker_heading_not_skipped exBareMarkerParagraphs 0
      { index := 0, text := "*" } (by decide)).1 (by decide)).1,
   (bare_marker_heading_not_skipped exBareMarkerParagraphs 1
      { index := 1, text := "_" } (by decide)).2 (by decide)⟩

end PromptMaster
